import Mathlib

/-!
Verification of the PM-Agents control-plane core: a shallow embedding of the
project-state ledger (`src/src/core/project_state.py`), the decision engine
(`src/src/core/decision_engine.py`), the message bus and capability router
(`src/agents/message_bus.py`), and the supervisor task queue
(`src/src/agents/supervisor/supervisor_agent.py`), together with theorems
settling the behavioural claims about them.

Modelling conventions:
- Python `int` is `Int`; Python `float` is modelled as `Rat` (the programs only
  perform exact decimal arithmetic and comparisons on these values).
- Python dicts keyed by strings are modelled as association lists
  (`List (String × _)`) or, where only fixed keys are read, as structures whose
  fields are the keys that the code consults; `dict.get` of an absent key is
  `Option.none`.
- `datetime.now().isoformat()` is nondeterministic, so every mutator takes the
  produced timestamp as an explicit `now : String` argument.
-/

/-- Python dicts with opaque (stringly) values, used for payload-like fields
whose contents no modelled code inspects. -/
abbrev PyDict := List (String × String)

/-- Dict assignment `d[k] = v`: replace the first binding of `k`, else append. -/
def assocSet {β : Type} : List (String × β) → String → β → List (String × β)
  | [], k, v => [(k, v)]
  | (k', v') :: rest, k, v =>
      if k' = k then (k, v) :: rest else (k', v') :: assocSet rest k v

/-- Dict lookup `d.get(k)`. -/
def assocGet {β : Type} (l : List (String × β)) (k : String) : Option β :=
  (l.find? (fun p => decide (p.1 = k))).map (fun p => p.2)

/-- Python truthiness of an optional string (`None` and `""` are falsy). -/
def pyTruthy : Option String → Bool
  | none => false
  | some s => decide (s ≠ "")

/-- Python `str(...)` applied to an optional string (`str(None) = "None"`). -/
def pyStr : Option String → String
  | none => "None"
  | some s => s

/-- Python `list.index`, returning `none` where Python raises `ValueError`. -/
def pyListIndex (x : String) : List String → Option Nat
  | [] => none
  | y :: ys => if y = x then some 0 else (pyListIndex x ys).map (fun i => i + 1)

/-- Python substring test `needle in hay`. -/
def strContains (hay needle : String) : Bool :=
  decide (needle.toList <:+: hay.toList)

/-! ## Project state ledger (`src/src/core/project_state.py`) -/

/-- A deliverable dict; the code consults the `type` key (absent = `none`). -/
structure Deliverable where
  type : Option String := none
  name : Option String := none
  content : Option String := none
  timestamp : Option String := none
deriving DecidableEq

/-- A risk dict; the code consults `severity` and the truthiness of `mitigated`. -/
structure Risk where
  severity : Option String := none
  mitigated : Bool := false
  identified_at : Option String := none
deriving DecidableEq

/-- An issue dict; the code consults `severity` and `status`. -/
structure Issue where
  severity : Option String := none
  status : Option String := none
  reported_at : Option String := none
deriving DecidableEq

/-- A blocker dict; the code consults `severity` and `status` and stamps
`blocked_at` / `resolved_at`. -/
structure Blocker where
  severity : Option String := none
  status : Option String := none
  description : Option String := none
  blocked_at : Option String := none
  resolved_at : Option String := none
deriving DecidableEq

/-- One entry of `go_decisions` (a phase-gate record). -/
structure GateDecision where
  decision : String
  score : Rat
  notes : String
  timestamp : String
deriving DecidableEq

/-- The `ProjectState` dataclass, field for field, with its defaults. -/
structure ProjectState where
  request_id : String
  project_name : String
  project_description : String
  project_type : String
  status : String := "pending"
  phase : String := "initiation"
  progress_percentage : Int := 0
  tasks_completed : Int := 0
  tasks_remaining : Int := 0
  start_time : Option String := none
  last_update_time : Option String := none
  tokens_budget : Int := 50000
  tokens_used : Int := 0
  tokens_remaining : Int := 50000
  api_calls : Int := 0
  cost_usd : Rat := 0
  plan : PyDict := []
  phase_outputs : List (String × List PyDict) :=
    [("initiation", []), ("planning", []), ("execution", []),
     ("monitoring", []), ("closure", [])]
  deliverables : List Deliverable := []
  risks : List Risk := []
  issues : List Issue := []
  blockers : List Blocker := []
  messages : List PyDict := []
  active_agents : List String := []
  go_decisions : List (String × GateDecision) := []
  metadata : PyDict := []
deriving DecidableEq

/-- `__post_init__`: fill in missing timestamps with the current time. -/
def ProjectState.post_init (now : String) (s : ProjectState) : ProjectState :=
  let s1 := if pyTruthy s.start_time then s else { s with start_time := some now }
  if pyTruthy s1.last_update_time then s1 else { s1 with last_update_time := some now }

/-- Constructing a fresh ledger with only the four required arguments. -/
def mkProjectState (rid nm dsc pt now : String) : ProjectState :=
  ProjectState.post_init now
    { request_id := rid, project_name := nm, project_description := dsc,
      project_type := pt }

/-- `ProjectState.add_deliverable`. -/
def ProjectState.add_deliverable (s : ProjectState) (d : Deliverable) (now : String) :
    ProjectState :=
  { s with deliverables := s.deliverables ++ [{ d with timestamp := some now }],
           last_update_time := some now }

/-- `ProjectState.add_risk`. -/
def ProjectState.add_risk (s : ProjectState) (r : Risk) (now : String) : ProjectState :=
  { s with risks := s.risks ++ [{ r with identified_at := some now }],
           last_update_time := some now }

/-- `ProjectState.add_issue`. -/
def ProjectState.add_issue (s : ProjectState) (i : Issue) (now : String) : ProjectState :=
  { s with issues := s.issues ++ [{ i with reported_at := some now }],
           last_update_time := some now }

/-- `ProjectState.add_blocker`: append the blocker (stamped) and set status. -/
def ProjectState.add_blocker (s : ProjectState) (b : Blocker) (now : String) :
    ProjectState :=
  { s with blockers := s.blockers ++ [{ b with blocked_at := some now }],
           status := "blocked",
           last_update_time := some now }

/-- Does a blocker count as unresolved (`b.get("status") != "resolved"`)? -/
def blockerUnresolved (b : Blocker) : Bool :=
  decide (¬ b.status = some "resolved")

/-- `ProjectState.resolve_blocker`: mark the indexed blocker resolved and, when no
unresolved blocker remains, revert status to `"in_progress"`. -/
def ProjectState.resolve_blocker (s : ProjectState) (blocker_index : Int) (now : String) :
    ProjectState :=
  if 0 ≤ blocker_index ∧ blocker_index < s.blockers.length then
    let i := blocker_index.toNat
    let b := s.blockers.getD i {}
    let blockers' := s.blockers.set i
      { b with resolved_at := some now, status := some "resolved" }
    let unresolved := blockers'.filter blockerUnresolved
    if unresolved = [] then
      { s with blockers := blockers', status := "in_progress",
               last_update_time := some now }
    else
      { s with blockers := blockers', last_update_time := some now }
  else
    { s with last_update_time := some now }

/-- The fixed phase order. -/
def phasesList : List String :=
  ["initiation", "planning", "execution", "monitoring", "closure"]

/-- `ProjectState.advance_phase`: move to the next phase; at the final phase set
status to `"completed"`; on an unknown phase (`ValueError`) change nothing. -/
def ProjectState.advance_phase (s : ProjectState) (now : String) : ProjectState :=
  match pyListIndex s.phase phasesList with
  | some i =>
      if i < phasesList.length - 1 then
        { s with phase := phasesList.getD (i + 1) s.phase,
                 last_update_time := some now }
      else
        { s with status := "completed", last_update_time := some now }
  | none => { s with last_update_time := some now }

/-- `ProjectState.record_phase_gate_decision`: record the gate entry and advance
the phase exactly when the decision is `"GO"`. -/
def ProjectState.record_phase_gate_decision (s : ProjectState)
    (phase decision : String) (score : Rat) (notes now : String) : ProjectState :=
  let gd := assocSet s.go_decisions phase ⟨decision, score, notes, now⟩
  let s1 := { s with go_decisions := gd }
  let s2 := if decision = "GO" then s1.advance_phase now else s1
  { s2 with last_update_time := some now }

/-- `ProjectState.update_token_usage`. -/
def ProjectState.update_token_usage (s : ProjectState) (tokens : Int) (cost : Rat)
    (now : String) : ProjectState :=
  let used := s.tokens_used + tokens
  { s with tokens_used := used,
           tokens_remaining := max 0 (s.tokens_budget - used),
           cost_usd := s.cost_usd + cost,
           api_calls := s.api_calls + 1,
           last_update_time := some now }

/-- Is a blocker critical and unresolved? -/
def blockerCritUnresolved (b : Blocker) : Bool :=
  decide (b.severity = some "critical") && decide (¬ b.status = some "resolved")

/-- `ProjectState.is_healthy`: false on an unresolved critical blocker, on less
than 10% of the token budget remaining, or on more than two unresolved critical
issues. -/
def ProjectState.is_healthy (s : ProjectState) : Bool :=
  if s.blockers.any blockerCritUnresolved then false
  else if (s.tokens_remaining : Rat) < (s.tokens_budget : Rat) * (1 / 10) then false
  else if 2 < (s.issues.filter (fun i =>
      decide (i.severity = some "critical") && decide (¬ i.status = some "resolved"))).length
    then false
  else true

/-- The dictionary produced by `ProjectState.to_dict` (`dataclasses.asdict`):
the same fields under the same names. -/
structure StateRecord where
  request_id : String
  project_name : String
  project_description : String
  project_type : String
  status : String
  phase : String
  progress_percentage : Int
  tasks_completed : Int
  tasks_remaining : Int
  start_time : Option String
  last_update_time : Option String
  tokens_budget : Int
  tokens_used : Int
  tokens_remaining : Int
  api_calls : Int
  cost_usd : Rat
  plan : PyDict
  phase_outputs : List (String × List PyDict)
  deliverables : List Deliverable
  risks : List Risk
  issues : List Issue
  blockers : List Blocker
  messages : List PyDict
  active_agents : List String
  go_decisions : List (String × GateDecision)
  metadata : PyDict
deriving DecidableEq

/-- `ProjectState.to_dict`: serialize every field. -/
def ProjectState.to_dict (s : ProjectState) : StateRecord :=
  { request_id := s.request_id, project_name := s.project_name,
    project_description := s.project_description, project_type := s.project_type,
    status := s.status, phase := s.phase,
    progress_percentage := s.progress_percentage,
    tasks_completed := s.tasks_completed, tasks_remaining := s.tasks_remaining,
    start_time := s.start_time, last_update_time := s.last_update_time,
    tokens_budget := s.tokens_budget, tokens_used := s.tokens_used,
    tokens_remaining := s.tokens_remaining, api_calls := s.api_calls,
    cost_usd := s.cost_usd, plan := s.plan, phase_outputs := s.phase_outputs,
    deliverables := s.deliverables, risks := s.risks, issues := s.issues,
    blockers := s.blockers, messages := s.messages,
    active_agents := s.active_agents, go_decisions := s.go_decisions,
    metadata := s.metadata }

/-- `ProjectState.from_dict`: rebuild the dataclass from the record; the
constructor re-runs `__post_init__`, which consumes a current timestamp. -/
def ProjectState.from_dict (now : String) (d : StateRecord) : ProjectState :=
  ProjectState.post_init now
    { request_id := d.request_id, project_name := d.project_name,
      project_description := d.project_description, project_type := d.project_type,
      status := d.status, phase := d.phase,
      progress_percentage := d.progress_percentage,
      tasks_completed := d.tasks_completed, tasks_remaining := d.tasks_remaining,
      start_time := d.start_time, last_update_time := d.last_update_time,
      tokens_budget := d.tokens_budget, tokens_used := d.tokens_used,
      tokens_remaining := d.tokens_remaining, api_calls := d.api_calls,
      cost_usd := d.cost_usd, plan := d.plan, phase_outputs := d.phase_outputs,
      deliverables := d.deliverables, risks := d.risks, issues := d.issues,
      blockers := d.blockers, messages := d.messages,
      active_agents := d.active_agents, go_decisions := d.go_decisions,
      metadata := d.metadata }

/-- The ledger mutators named by the blocked-status invariant claim, as one
alphabet of operations. -/
inductive Mutator where
  | addBlocker (b : Blocker) (now : String)
  | resolveBlocker (i : Int) (now : String)
  | addDeliverable (d : Deliverable) (now : String)
  | addRisk (r : Risk) (now : String)
  | addIssue (i : Issue) (now : String)
  | updateTokenUsage (tokens : Int) (cost : Rat) (now : String)
  | recordPhaseGate (phase decision : String) (score : Rat) (notes now : String)
  | advancePhase (now : String)
deriving DecidableEq

/-- Apply one mutator to a ledger. -/
def applyMutator (s : ProjectState) : Mutator → ProjectState
  | .addBlocker b now => s.add_blocker b now
  | .resolveBlocker i now => s.resolve_blocker i now
  | .addDeliverable d now => s.add_deliverable d now
  | .addRisk r now => s.add_risk r now
  | .addIssue i now => s.add_issue i now
  | .updateTokenUsage t c now => s.update_token_usage t c now
  | .recordPhaseGate ph d sc notes now => s.record_phase_gate_decision ph d sc notes now
  | .advancePhase now => s.advance_phase now

/-- Apply a sequence of mutators, left to right. -/
def runMutators : List Mutator → ProjectState → ProjectState
  | [], s => s
  | op :: ops, s => runMutators ops (applyMutator s op)

/-- Does the ledger hold at least one unresolved blocker? -/
def hasUnresolved (s : ProjectState) : Prop :=
  ∃ b ∈ s.blockers, b.status ≠ some "resolved"

/-! ## Decision engine (`src/src/core/decision_engine.py`) -/

/-- The `Decision` enum. -/
inductive Decision where
  | ACCEPT | REJECT | CLARIFY | GO | CONDITIONAL_GO | NO_GO
deriving DecidableEq

/-- A `DecisionResult`. The `rationale` and `metadata` fields, holding formatted
log strings that no modelled code or claim consults, are omitted. -/
structure DecisionResult where
  decision : Decision
  confidence : Rat
  required_actions : List String := []
deriving DecidableEq

/-- `DecisionEngine.QUALITY_THRESHOLD`. -/
def QUALITY_THRESHOLD : Rat := 70

/-- `DecisionEngine.MIN_TOKENS_FOR_NEXT_PHASE`. -/
def MIN_TOKENS_FOR_NEXT_PHASE : Int := 5000

/-- The `phase_outputs` dict consumed by the decision engine: the code reads the
`deliverables` and `issues` keys, each defaulting to the empty list. -/
structure PhaseOutputs where
  deliverables : List Deliverable := []
  issues : List Issue := []
deriving DecidableEq

/-- `DecisionEngine._get_required_deliverables`: the fixed per-phase checklist. -/
def required_deliverables (phase : String) : List String :=
  if phase = "initiation" then
    ["feasibility_assessment", "scope_definition", "stakeholder_identification",
     "initial_risk_assessment"]
  else if phase = "planning" then
    ["project_plan", "resource_allocation", "schedule", "risk_management_plan"]
  else if phase = "execution" then
    ["implementation", "code_deliverables", "documentation"]
  else if phase = "monitoring" then
    ["progress_reports", "quality_metrics", "issue_logs"]
  else if phase = "closure" then
    ["final_deliverables", "lessons_learned", "project_closure_report"]
  else []

/-- `DecisionEngine._check_deliverables_complete`: at least 70% of the required
deliverable names must occur as substrings of the lowercased output types. -/
def check_deliverables_complete (outs : PhaseOutputs) (required : List String) : Bool :=
  let output_types := outs.deliverables.map (fun o => o.type)
  let present := (required.filter (fun r =>
      output_types.any (fun ot => strContains (pyStr ot).toLower r))).length
  decide ((present : Rat) ≥ (required.length : Rat) * (7 / 10))

/-- `DecisionEngine._assess_quality`: base 75, +10 for documentation, +10 for
tests, −10 per critical issue, clamped to [0, 100]; 0 with no deliverables. -/
def assess_quality (outs : PhaseOutputs) : Rat :=
  if outs.deliverables = [] then 0
  else
    let score : Rat := 75
    let score := if outs.deliverables.any (fun d =>
        strContains (d.type.getD "").toLower "documentation") then score + 10 else score
    let score := if outs.deliverables.any (fun d =>
        strContains (d.type.getD "").toLower "test") then score + 10 else score
    let score := score -
      10 * ((outs.issues.filter (fun i => decide (i.severity = some "critical"))).length : Rat)
    min (max score 0) 100

/-- Is a risk critical and unmitigated? -/
def riskCritUnmitigated (r : Risk) : Bool :=
  decide (r.severity = some "critical") && !r.mitigated

/-- `DecisionEngine.phase_gate_decision`: hard NO_GO stops (deliverable
coverage, critical blockers, token floor), soft penalties (quality, risks), and
the 90/70 score bands. The `project_state` dict argument is the serialized
ledger. -/
def phase_gate_decision (phase : String) (phase_outputs : PhaseOutputs)
    (project_state : StateRecord) : DecisionResult :=
  let required := required_deliverables phase
  if ¬ check_deliverables_complete phase_outputs required then
    { decision := Decision.NO_GO, confidence := 1,
      required_actions := ["Complete all required deliverables before proceeding"] }
  else
    let score : Rat := 100
    let quality_score := assess_quality phase_outputs
    let score := if quality_score < QUALITY_THRESHOLD then score - 30 else score
    let actions1 : List String :=
      if quality_score < QUALITY_THRESHOLD then ["Improve quality to at least 70.0"] else []
    let critical_risks := project_state.risks.filter riskCritUnmitigated
    let score := if critical_risks ≠ [] then score - 25 else score
    let actions2 := actions1 ++
      (if critical_risks ≠ [] then ["Mitigate all critical risks"] else [])
    let critical_blockers := project_state.blockers.filter blockerCritUnresolved
    if critical_blockers ≠ [] then
      { decision := Decision.NO_GO, confidence := 1,
        required_actions := ["Resolve all critical blockers"] }
    else if project_state.tokens_remaining < MIN_TOKENS_FOR_NEXT_PHASE then
      { decision := Decision.NO_GO, confidence := 1,
        required_actions := ["Request additional token budget or reduce scope"] }
    else
      let decision :=
        if score ≥ 90 then Decision.GO
        else if score ≥ 70 then Decision.CONDITIONAL_GO
        else Decision.NO_GO
      { decision := decision, confidence := min (score / 100) 1,
        required_actions := actions2 }

/-! ## Message bus (`src/agents/message_bus.py`, class `MessageBus`)

Handlers are arbitrary subscriber callbacks whose only observable effect on the
bus is whether they raise; a delivery round is therefore parameterized by the
list of callback outcomes for the recipient (`true` = returned normally,
`false` = raised; the empty list = no subscribers). -/

/-- The fields of an `AgentMessage` that the bus reads. -/
structure AgentMsg where
  message_id : String
  sender_id : String
  recipient_id : String
  message_type : String
  priority : String
  timestamp : String
deriving DecidableEq

/-- One value of the `pending_messages` tracking dict. -/
structure PendingTrack where
  attempts : Nat
  first_attempt : String
  last_attempt : Option String
deriving DecidableEq

/-- One entry of `message_history` (a successful delivery record). -/
structure HistoryEntry where
  message_id : String
  sender_id : String
  recipient_id : String
  message_type : String
  priority : String
  timestamp : String
  delivered_at : String
deriving DecidableEq

/-- The mutable state of a `MessageBus`: the four priority queues, the pending
tracking dict, the dead-letter list (message, reason, timestamp) and the
delivery history. -/
structure MessageBus where
  critical : List AgentMsg
  high : List AgentMsg
  normal : List AgentMsg
  low : List AgentMsg
  pending_messages : List (String × PendingTrack)
  failed_messages : List (AgentMsg × String × String)
  message_history : List HistoryEntry
  max_delivery_attempts : Nat
deriving DecidableEq

/-- A freshly initialized bus (`MessageBus.__init__`). -/
def initBus : MessageBus :=
  { critical := [], high := [], normal := [], low := [],
    pending_messages := [], failed_messages := [], message_history := [],
    max_delivery_attempts := 3 }

/-- `MessageBus.publish`: enqueue on the queue named by the priority, falling
back to the `"normal"` queue for an unrecognized priority. -/
def MessageBus.publish (s : MessageBus) (m : AgentMsg) : MessageBus :=
  if m.priority = "critical" then { s with critical := s.critical ++ [m] }
  else if m.priority = "high" then { s with high := s.high ++ [m] }
  else if m.priority = "normal" then { s with normal := s.normal ++ [m] }
  else if m.priority = "low" then { s with low := s.low ++ [m] }
  else { s with normal := s.normal ++ [m] }

/-- `MessageBus._move_to_dead_letter`. -/
def MessageBus.move_to_dead_letter (s : MessageBus) (m : AgentMsg)
    (reason now : String) : MessageBus :=
  { s with failed_messages := s.failed_messages ++ [(m, reason, now)] }

/-- The history record appended on a successful delivery. -/
def histEntry (m : AgentMsg) (now : String) : HistoryEntry :=
  { message_id := m.message_id, sender_id := m.sender_id,
    recipient_id := m.recipient_id, message_type := m.message_type,
    priority := m.priority, timestamp := m.timestamp, delivered_at := now }

/-- `MessageBus._route_message`, with `results` the outcome of each subscriber
callback of the recipient. Note that the tracking entry is (re)initialized with
`attempts = 0` at the top of every call, exactly as in the source. -/
def MessageBus.route_message (s : MessageBus) (m : AgentMsg) (results : List Bool)
    (now : String) : MessageBus :=
  let track : PendingTrack := { attempts := 0, first_attempt := now, last_attempt := none }
  let s1 := { s with pending_messages := assocSet s.pending_messages m.message_id track }
  if results.isEmpty then
    s1.move_to_dead_letter m "No subscribers" now
  else if results.any (fun b => b) then
    let tr := (assocGet s1.pending_messages m.message_id).getD track
    let tr' := { tr with attempts := tr.attempts + 1, last_attempt := some now }
    { s1 with pending_messages := assocSet s1.pending_messages m.message_id tr',
              message_history := s1.message_history ++ [histEntry m now] }
  else
    let attempts := ((assocGet s1.pending_messages m.message_id).getD track).attempts + 1
    if attempts < s1.max_delivery_attempts then s1.publish m
    else s1.move_to_dead_letter m "Max delivery attempts exceeded" now

/-- The four priority tiers, each drained by its own worker. -/
inductive Tier where
  | critical | high | normal | low
deriving DecidableEq

/-- The queue name of a tier. -/
def tierName : Tier → String
  | .critical => "critical"
  | .high => "high"
  | .normal => "normal"
  | .low => "low"

/-- The queue of a tier. -/
def queueOf : Tier → MessageBus → List AgentMsg
  | .critical, s => s.critical
  | .high, s => s.high
  | .normal, s => s.normal
  | .low, s => s.low

/-- Replace the queue of a tier. -/
def setQueue : Tier → List AgentMsg → MessageBus → MessageBus
  | .critical, q, s => { s with critical := q }
  | .high, q, s => { s with high := q }
  | .normal, q, s => { s with normal := q }
  | .low, q, s => { s with low := q }

/-- One scheduling step of the worker of tier `t` (`MessageBus._process_queue`):
dequeue the head of its queue and route it, or do nothing when the queue is
empty (the `asyncio.TimeoutError` branch). -/
def workerStep (results : AgentMsg → List Bool) (now : String) (t : Tier)
    (s : MessageBus) : MessageBus :=
  match queueOf t s with
  | [] => s
  | m :: rest => (setQueue t rest s).route_message m (results m) now

/-- Run the four concurrent tier workers under an explicit interleaving: the
schedule lists which tier's worker performs the next dequeue-and-route step. -/
def runWorkers (results : AgentMsg → List Bool) (now : String) :
    List Tier → MessageBus → MessageBus
  | [], s => s
  | t :: ts, s => runWorkers results now ts (workerStep results now t s)

/-- One processing cycle of the `"normal"` tier worker against a recipient with
a single subscriber whose handler raises on every delivery. -/
def failCycle (now : String) (s : MessageBus) : MessageBus :=
  match s.normal with
  | [] => s
  | m :: rest => ({ s with normal := rest }).route_message m [false] now

/-! ## Capability router (`src/agents/message_bus.py`, class `MessageRouter`) -/

/-- The router's registries: type → ids in registration order, id → declared
capability list (the `"capabilities"` entry of the capabilities dict, absent =
empty), and id → current load (a `defaultdict(int)`). -/
structure MessageRouter where
  agent_registry : String → List String
  agent_capabilities : String → List String
  agent_load : String → Int

/-- Does an agent declare every required capability? -/
def passesCaps (r : MessageRouter) (required : List String) (a : String) : Bool :=
  required.all (fun cap => decide (cap ∈ r.agent_capabilities a))

/-- The candidate list after the capability filter (`required_capabilities` is
falsy when empty, skipping the filter). -/
def filteredCandidates (r : MessageRouter) (agent_type : String)
    (required : List String) : List String :=
  let candidates := r.agent_registry agent_type
  if required ≠ [] then candidates.filter (passesCaps r required) else candidates

/-- Python `min(candidates, key=...)`: the first element attaining the minimal
key, `none` on the empty list. -/
def pyMin (key : String → Int) : List String → Option String
  | [] => none
  | a :: rest =>
      some (rest.foldl (fun best x => if key x < key best then x else best) a)

/-- `MessageRouter.select_agent`. -/
def MessageRouter.select_agent (r : MessageRouter) (agent_type : String)
    (required_capabilities : List String) (load_balance : Bool) : Option String :=
  if r.agent_registry agent_type = [] then none
  else if filteredCandidates r agent_type required_capabilities = [] then none
  else if load_balance then
    pyMin r.agent_load (filteredCandidates r agent_type required_capabilities)
  else (filteredCandidates r agent_type required_capabilities).head?

/-! ## Supervisor task queue (`src/src/agents/supervisor/supervisor_agent.py`) -/

namespace Supervisor

/-- The fields of a task dict that the queue reads. -/
structure Task where
  task_id : String
  priority : String
  dependencies : List String
deriving DecidableEq

/-- The `TaskQueue` state. The Python `completed` and `failed` dicts map a
task_id to the finished task (with its result or error attached); only key
membership is ever consulted, so they are modelled as their key lists. -/
structure TaskQueue where
  queues : String → List Task
  in_progress : List (String × Task)
  completed : List String
  failed : List String

/-- The bucket scan order of `get_next_task`. -/
def prioOrder : List String := ["critical", "high", "medium", "low"]

/-- `TaskQueue._dependencies_met`: every dependency id is a completed key. -/
def depsMet (completed : List String) (t : Task) : Bool :=
  t.dependencies.all (fun d => decide (d ∈ completed))

/-- Scan one bucket for the first task whose dependencies are met, removing it. -/
def popDispatchable (completed : List String) : List Task → Option Task × List Task
  | [] => (none, [])
  | t :: ts =>
      if depsMet completed t then (some t, ts)
      else
        let r := popDispatchable completed ts
        (r.1, t :: r.2)

/-- Scan the buckets in priority order for a dispatchable task. -/
def scanBuckets (completed : List String) (queues : String → List Task) :
    List String → Option (String × Task × List Task)
  | [] => none
  | p :: ps =>
      match popDispatchable completed (queues p) with
      | (some t, rest) => some (p, t, rest)
      | (none, _) => scanBuckets completed queues ps

/-- `TaskQueue.get_next_task`: scan buckets high-to-low priority, pop the first
task whose dependencies are all completed, and move it to `in_progress`. -/
def TaskQueue.get_next_task (q : TaskQueue) : Option Task × TaskQueue :=
  match scanBuckets q.completed q.queues prioOrder with
  | some (p, t, rest) =>
      (some t,
       { q with queues := fun p' => if p' = p then rest else q.queues p',
                in_progress := assocSet q.in_progress t.task_id t })
  | none => (none, q)

/-- `TaskQueue.mark_completed` (the stored result is not modelled). -/
def TaskQueue.mark_completed (q : TaskQueue) (task_id : String) : TaskQueue :=
  if q.in_progress.any (fun pr => decide (pr.1 = task_id)) then
    { q with in_progress := q.in_progress.eraseP (fun pr => decide (pr.1 = task_id)),
             completed := q.completed ++ [task_id] }
  else q

/-- `TaskQueue.mark_failed` (the stored error is not modelled). -/
def TaskQueue.mark_failed (q : TaskQueue) (task_id : String) : TaskQueue :=
  if q.in_progress.any (fun pr => decide (pr.1 = task_id)) then
    { q with in_progress := q.in_progress.eraseP (fun pr => decide (pr.1 = task_id)),
             failed := q.failed ++ [task_id] }
  else q

/-- All pending tasks, in bucket-scan order. -/
def pendingOf (q : TaskQueue) : List Task :=
  (prioOrder.map q.queues).flatten

/-- The driver loop under which every dispatched task succeeds: repeatedly take
the next task and mark it completed, stopping when nothing is dispatchable. -/
def drain : Nat → TaskQueue → TaskQueue
  | 0, q => q
  | n + 1, q =>
      match q.get_next_task with
      | (none, _) => q
      | (some t, q') => drain n (q'.mark_completed t.task_id)

end Supervisor

/-! ## Remaining definitions used by the theorems -/

/-- Fold a list of `update_token_usage` calls over a ledger. -/
def applyTokenUpdates : List (Int × Rat × String) → ProjectState → ProjectState
  | [], s => s
  | (t, c, now) :: rest, s => applyTokenUpdates rest (s.update_token_usage t c now)

/-- An envelope with an unrecognized priority. -/
def mUrgent : AgentMsg :=
  { message_id := "m-x", sender_id := "a", recipient_id := "b",
    message_type := "status_update", priority := "urgent", timestamp := "t0" }

/-- A normal-priority envelope whose only subscriber always raises. -/
def mFail : AgentMsg :=
  { message_id := "msg-1", sender_id := "coordinator", recipient_id := "research",
    message_type := "task_request", priority := "normal", timestamp := "t0" }

/-- A high-priority envelope, present on the high queue at dispatch time. -/
def m1C2 : AgentMsg :=
  { message_id := "m1", sender_id := "s", recipient_id := "r1",
    message_type := "task_request", priority := "high", timestamp := "t0" }

/-- A low-priority envelope. -/
def m2C2 : AgentMsg :=
  { message_id := "m2", sender_id := "s", recipient_id := "r2",
    message_type := "task_request", priority := "low", timestamp := "t0" }

/-- A bus holding `m1C2` on the high queue and `m2C2` on the low queue. -/
def sC2 : MessageBus := { initBus with high := [m1C2], low := [m2C2] }

/-- A router with three workers of loads 3, 1, 2 (in registration order). -/
def rEx : MessageRouter :=
  { agent_registry := fun ty => if ty = "worker" then ["a1", "a2", "a3"] else [],
    agent_capabilities := fun _ => ["code"],
    agent_load := fun a =>
      if a = "a1" then 3 else if a = "a2" then 1 else if a = "a3" then 2 else 0 }

/-- The mutator sequence of the blocked-status counterexample: add an unresolved
critical blocker, then advance through all five phases. -/
def opsC3 : List Mutator :=
  [Mutator.addBlocker { severity := some "critical", status := some "open" } "t1",
   Mutator.advancePhase "t2", Mutator.advancePhase "t3", Mutator.advancePhase "t4",
   Mutator.advancePhase "t5", Mutator.advancePhase "t6"]

/-- A task with no dependencies. -/
def tA : Supervisor.Task := { task_id := "A", priority := "high", dependencies := [] }

/-- A task depending on `tA`. -/
def tB : Supervisor.Task := { task_id := "B", priority := "high", dependencies := ["A"] }

/-- A queue holding `tA` and `tB` in the high bucket. -/
def qC7 : Supervisor.TaskQueue :=
  { queues := fun p => if p = "high" then [tA, tB] else [],
    in_progress := [], completed := [], failed := [] }

/-- A queue holding only `tA` in the high bucket. -/
def qC7W : Supervisor.TaskQueue :=
  { queues := fun p => if p = "high" then [tA] else [],
    in_progress := [], completed := [], failed := [] }

/-! ## Helper lemmas -/

theorem assocGet_assocSet {β : Type} (l : List (String × β)) (k : String) (v : β) :
    assocGet (assocSet l k v) k = some v := by
  induction l with
  | nil => simp [assocSet, assocGet]
  | cons p rest ih =>
    obtain ⟨k', v'⟩ := p
    by_cases h : k' = k
    · simp [assocSet, h, assocGet]
    · simp only [assocSet, if_neg h]
      simpa [assocGet, List.find?, h] using ih

theorem mem_assocSet_self {β : Type} (l : List (String × β)) (k : String) (v : β) :
    (k, v) ∈ assocSet l k v := by
  induction l with
  | nil => simp [assocSet]
  | cons p rest ih =>
    obtain ⟨k', v'⟩ := p
    by_cases h : k' = k
    · simp [assocSet, h]
    · simp only [assocSet, if_neg h]
      exact List.mem_cons_of_mem _ ih

/-! ## C10 -/

/-- C10: `publish` never fails on an unrecognized priority: an envelope whose
priority is none of critical/high/normal/low is enqueued on the normal
priority queue (and no other queue changes), rather than raising or dropping. -/
theorem c10_publish_unknown_priority (s : MessageBus) (m : AgentMsg)
    (h1 : m.priority ≠ "critical") (h2 : m.priority ≠ "high")
    (h3 : m.priority ≠ "normal") (h4 : m.priority ≠ "low") :
    s.publish m = { s with normal := s.normal ++ [m] } := by
  simp [MessageBus.publish, h1, h2, h3, h4]

/-- Witness for C10 at the concrete priority `"urgent"`. -/
theorem c10_witness :
    initBus.publish mUrgent = { initBus with normal := initBus.normal ++ [mUrgent] } :=
  c10_publish_unknown_priority initBus mUrgent (by decide) (by decide) (by decide)
    (by decide)

/-! ## C9 -/

/-- C9: `record_phase_gate_decision` with decision `"GO"` advances the phase to
the next one in the fixed order initiation → planning → execution → monitoring
→ closure, sets status to `"completed"` when the current phase is the final
one, and any other decision leaves the phase unchanged. -/
theorem c9_phase_advance (s : ProjectState) (ph : String) (sc : Rat) (notes now : String) :
    ((s.phase = "initiation" →
        (s.record_phase_gate_decision ph "GO" sc notes now).phase = "planning") ∧
     (s.phase = "planning" →
        (s.record_phase_gate_decision ph "GO" sc notes now).phase = "execution") ∧
     (s.phase = "execution" →
        (s.record_phase_gate_decision ph "GO" sc notes now).phase = "monitoring") ∧
     (s.phase = "monitoring" →
        (s.record_phase_gate_decision ph "GO" sc notes now).phase = "closure") ∧
     (s.phase = "closure" →
        (s.record_phase_gate_decision ph "GO" sc notes now).status = "completed" ∧
        (s.record_phase_gate_decision ph "GO" sc notes now).phase = "closure")) ∧
    (∀ d : String, d ≠ "GO" →
        (s.record_phase_gate_decision ph d sc notes now).phase = s.phase) := by
  constructor
  · refine ⟨fun h => ?_, fun h => ?_, fun h => ?_, fun h => ?_, fun h => ?_⟩ <;>
      simp [ProjectState.record_phase_gate_decision, ProjectState.advance_phase,
        phasesList, pyListIndex, h]
  · intro d hd
    simp [ProjectState.record_phase_gate_decision, hd]

/-- Witness for C9: a GO recorded on a fresh ledger moves it to planning. -/
theorem c9_witness :
    ((mkProjectState "r" "n" "d" "ml" "t0").record_phase_gate_decision
        "initiation" "GO" 95 "ok" "t1").phase = "planning" :=
  (c9_phase_advance (mkProjectState "r" "n" "d" "ml" "t0") "initiation" 95 "ok" "t1").1.1
    (by decide)

/-! ## C6 -/

/-- C6: deserializing a serialized ledger reproduces it exactly, field for
field; the `__post_init__` hypotheses hold for every ledger whose timestamps
have been filled in (which construction guarantees). -/
theorem c6_roundtrip (now : String) (s : ProjectState)
    (h1 : pyTruthy s.start_time = true) (h2 : pyTruthy s.last_update_time = true) :
    ProjectState.from_dict now s.to_dict = s := by
  simp [ProjectState.from_dict, ProjectState.to_dict, ProjectState.post_init, h1, h2]

/-- Witness for C6 on a freshly created, then mutated, ledger. -/
theorem c6_witness :
    ProjectState.from_dict "t9"
        ((mkProjectState "r" "n" "d" "ml" "t0").add_blocker
            { severity := some "high" } "t1").to_dict =
      (mkProjectState "r" "n" "d" "ml" "t0").add_blocker { severity := some "high" } "t1" :=
  c6_roundtrip "t9" _ (by decide) (by decide)

/-! ## C4 -/

/-- C4: whenever an unresolved critical blocker is present in the project
state, `phase_gate_decision` returns NO_GO with confidence 1.0, for every
phase, phase outputs, quality score, risk list and soft-penalty total. -/
theorem c4_critical_blocker_no_go (phase : String) (outs : PhaseOutputs)
    (ps : StateRecord)
    (h : ∃ b ∈ ps.blockers, b.severity = some "critical" ∧ b.status ≠ some "resolved") :
    (phase_gate_decision phase outs ps).decision = Decision.NO_GO ∧
    (phase_gate_decision phase outs ps).confidence = 1 := by
  obtain ⟨b, hb, hsev, hst⟩ := h
  have hfilter : ps.blockers.filter blockerCritUnresolved ≠ [] := by
    have hmem : b ∈ ps.blockers.filter blockerCritUnresolved :=
      List.mem_filter.mpr ⟨hb, by simp [blockerCritUnresolved, hsev, hst]⟩
    intro hnil
    rw [hnil] at hmem
    exact absurd hmem (List.not_mem_nil b)
  by_cases hc : check_deliverables_complete outs (required_deliverables phase)
  · constructor <;> simp [phase_gate_decision, hc, hfilter]
  · constructor <;> simp [phase_gate_decision, hc]

/-- Witness for C4 at a concrete state with one unresolved critical blocker. -/
theorem c4_witness :
    (phase_gate_decision "execution" {}
        ((mkProjectState "r" "n" "d" "ml" "t0").add_blocker
            { severity := some "critical", status := some "open" } "t1").to_dict).decision =
      Decision.NO_GO ∧
    (phase_gate_decision "execution" {}
        ((mkProjectState "r" "n" "d" "ml" "t0").add_blocker
            { severity := some "critical", status := some "open" } "t1").to_dict).confidence =
      1 :=
  c4_critical_blocker_no_go "execution" {} _ (by decide)

/-! ## C5 -/

theorem update_token_usage_inv (s : ProjectState) (t : Int) (c : Rat) (now : String) :
    (s.update_token_usage t c now).tokens_remaining =
      max 0 ((s.update_token_usage t c now).tokens_budget -
        (s.update_token_usage t c now).tokens_used) := by
  simp [ProjectState.update_token_usage]

theorem applyTokenUpdates_inv (l : List (Int × Rat × String)) :
    ∀ s : ProjectState,
      s.tokens_remaining = max 0 (s.tokens_budget - s.tokens_used) →
      (applyTokenUpdates l s).tokens_remaining =
        max 0 ((applyTokenUpdates l s).tokens_budget - (applyTokenUpdates l s).tokens_used) := by
  induction l with
  | nil => intro s hs; exact hs
  | cons u rest ih =>
    intro s _
    obtain ⟨t, c, now⟩ := u
    exact ih (s.update_token_usage t c now) (update_token_usage_inv s t c now)

/-- C5: after any nonempty sequence of `update_token_usage` calls,
`tokens_remaining = max 0 (tokens_budget − tokens_used)` and is never negative;
and on a fresh ledger with positive budget `B`, a single call consuming `B + 1`
tokens leaves zero remaining and makes `is_healthy` false. -/
theorem c5_tokens_remaining :
    (∀ (s : ProjectState) (l : List (Int × Rat × String)), l ≠ [] →
      (applyTokenUpdates l s).tokens_remaining =
        max 0 ((applyTokenUpdates l s).tokens_budget - (applyTokenUpdates l s).tokens_used) ∧
      0 ≤ (applyTokenUpdates l s).tokens_remaining) ∧
    (∀ (rid nm dsc pt now now2 : String) (B : Int) (c : Rat), 0 < B →
      ((ProjectState.post_init now
          { request_id := rid, project_name := nm, project_description := dsc,
            project_type := pt, tokens_budget := B,
            tokens_used := 0 }).update_token_usage (B + 1) c now2).tokens_remaining = 0 ∧
      ((ProjectState.post_init now
          { request_id := rid, project_name := nm, project_description := dsc,
            project_type := pt, tokens_budget := B,
            tokens_used := 0 }).update_token_usage (B + 1) c now2).is_healthy = false) := by
  constructor
  · intro s l hl
    have hinv : (applyTokenUpdates l s).tokens_remaining =
        max 0 ((applyTokenUpdates l s).tokens_budget - (applyTokenUpdates l s).tokens_used) := by
      cases l with
      | nil => exact absurd rfl hl
      | cons u rest =>
        obtain ⟨t, c, now⟩ := u
        exact applyTokenUpdates_inv rest (s.update_token_usage t c now)
          (update_token_usage_inv s t c now)
    exact ⟨hinv, hinv ▸ le_max_left 0 _⟩
  · intro rid nm dsc pt now now2 B c hB
    have hrem : ((ProjectState.post_init now
        { request_id := rid, project_name := nm, project_description := dsc,
          project_type := pt, tokens_budget := B,
          tokens_used := 0 }).update_token_usage (B + 1) c now2).tokens_remaining = 0 := by
      simp [ProjectState.update_token_usage, ProjectState.post_init, pyTruthy]
    refine ⟨hrem, ?_⟩
    have hbud : ((ProjectState.post_init now
        { request_id := rid, project_name := nm, project_description := dsc,
          project_type := pt, tokens_budget := B,
          tokens_used := 0 }).update_token_usage (B + 1) c now2).tokens_budget = B := by
      simp [ProjectState.update_token_usage, ProjectState.post_init, pyTruthy]
    have hblk : ((ProjectState.post_init now
        { request_id := rid, project_name := nm, project_description := dsc,
          project_type := pt, tokens_budget := B,
          tokens_used := 0 }).update_token_usage (B + 1) c now2).blockers = [] := by
      simp [ProjectState.update_token_usage, ProjectState.post_init, pyTruthy]
    rw [ProjectState.is_healthy, hrem, hbud, hblk]
    simp
    intro h
    omega

/-- Witness for C5: a two-call sequence on an arbitrary fresh ledger, and the
budget-plus-one overdraft on a budget of 10. -/
theorem c5_witness :
    ((applyTokenUpdates [(100, 0, "t1"), (200, 0, "t2")]
        (mkProjectState "r" "n" "d" "ml" "t0")).tokens_remaining =
      max 0 ((applyTokenUpdates [(100, 0, "t1"), (200, 0, "t2")]
          (mkProjectState "r" "n" "d" "ml" "t0")).tokens_budget -
        (applyTokenUpdates [(100, 0, "t1"), (200, 0, "t2")]
          (mkProjectState "r" "n" "d" "ml" "t0")).tokens_used) ∧
      0 ≤ (applyTokenUpdates [(100, 0, "t1"), (200, 0, "t2")]
          (mkProjectState "r" "n" "d" "ml" "t0")).tokens_remaining) ∧
    (((ProjectState.post_init "t0"
        { request_id := "r", project_name := "n", project_description := "d",
          project_type := "ml", tokens_budget := 10,
          tokens_used := 0 }).update_token_usage 11 0 "t1").tokens_remaining = 0 ∧
      ((ProjectState.post_init "t0"
        { request_id := "r", project_name := "n", project_description := "d",
          project_type := "ml", tokens_budget := 10,
          tokens_used := 0 }).update_token_usage 11 0 "t1").is_healthy = false) :=
  ⟨c5_tokens_remaining.1 (mkProjectState "r" "n" "d" "ml" "t0")
      [(100, 0, "t1"), (200, 0, "t2")] (by simp),
   c5_tokens_remaining.2 "r" "n" "d" "ml" "t0" "t1" 10 0 (by decide)⟩

/-! ## C3 -/

theorem c3_add_blocker (s : ProjectState) (b : Blocker) (now : String)
    (hb : b.status ≠ some "resolved") :
    (s.add_blocker b now).status ≠ "completed" →
      ((s.add_blocker b now).status = "blocked" ↔ hasUnresolved (s.add_blocker b now)) := by
  intro _
  constructor
  · intro _
    exact ⟨{ b with blocked_at := some now }, by simp [ProjectState.add_blocker], hb⟩
  · intro _
    rfl

theorem c3_advance (s : ProjectState) (now : String)
    (hInv : s.status ≠ "completed" → (s.status = "blocked" ↔ hasUnresolved s)) :
    (s.advance_phase now).status ≠ "completed" →
      ((s.advance_phase now).status = "blocked" ↔ hasUnresolved (s.advance_phase now)) := by
  cases hidx : pyListIndex s.phase phasesList with
  | none =>
    simp only [ProjectState.advance_phase, hidx]
    exact hInv
  | some i =>
    by_cases hlt : i < phasesList.length - 1
    · simp only [ProjectState.advance_phase, hidx, if_pos hlt]
      exact hInv
    · simp only [ProjectState.advance_phase, hidx, if_neg hlt]
      intro hc
      simp at hc

theorem c3_resolve (s : ProjectState) (i : Int) (now : String)
    (hInv : s.status ≠ "completed" → (s.status = "blocked" ↔ hasUnresolved s)) :
    (s.resolve_blocker i now).status ≠ "completed" →
      ((s.resolve_blocker i now).status = "blocked" ↔
        hasUnresolved (s.resolve_blocker i now)) := by
  by_cases hrange : 0 ≤ i ∧ i < s.blockers.length
  · simp only [ProjectState.resolve_blocker, if_pos hrange]
    set b0 := s.blockers.getD i.toNat {} with hb0
    set br := s.blockers.set i.toNat
      { b0 with resolved_at := some now, status := some "resolved" } with hbr
    by_cases hu : br.filter blockerUnresolved = []
    · rw [if_pos hu]
      intro _
      constructor
      · intro hst
        simp at hst
      · intro hun
        obtain ⟨b, hbmem, hbst⟩ := hun
        have hmem : b ∈ br.filter blockerUnresolved :=
          List.mem_filter.mpr ⟨hbmem, by simpa [blockerUnresolved] using hbst⟩
        rw [hu] at hmem
        exact absurd hmem (List.not_mem_nil b)
    · rw [if_neg hu]
      have hunew : hasUnresolved { s with blockers := br, last_update_time := some now } := by
        rcases hfe : br.filter blockerUnresolved with _ | ⟨b, rest⟩
        · exact absurd hfe hu
        · have hmem : b ∈ br.filter blockerUnresolved := by
            rw [hfe]; exact List.mem_cons_self b rest
          have := List.mem_filter.mp hmem
          exact ⟨b, this.1, by simpa [blockerUnresolved] using this.2⟩
      have hold : hasUnresolved s := by
        obtain ⟨b, hbmem, hbp⟩ := hunew
        rcases List.mem_or_eq_of_mem_set hbmem with hmem | heq
        · exact ⟨b, hmem, hbp⟩
        · exact absurd (by rw [heq]) hbp
      intro hc
      exact iff_of_true ((hInv hc).mpr hold) hunew
  · simp only [ProjectState.resolve_blocker, if_neg hrange]
    exact hInv

theorem c3_record (s : ProjectState) (ph d : String) (sc : Rat) (notes now : String)
    (hInv : s.status ≠ "completed" → (s.status = "blocked" ↔ hasUnresolved s)) :
    (s.record_phase_gate_decision ph d sc notes now).status ≠ "completed" →
      ((s.record_phase_gate_decision ph d sc notes now).status = "blocked" ↔
        hasUnresolved (s.record_phase_gate_decision ph d sc notes now)) := by
  by_cases hd : d = "GO"
  · simp only [ProjectState.record_phase_gate_decision, if_pos hd]
    exact c3_advance { s with go_decisions := assocSet s.go_decisions ph ⟨d, sc, notes, now⟩ } now hInv
  · simp only [ProjectState.record_phase_gate_decision, if_neg hd]
    exact hInv

theorem c3_step (s : ProjectState) (op : Mutator)
    (hop : ∀ b now, op = Mutator.addBlocker b now → b.status ≠ some "resolved")
    (hInv : s.status ≠ "completed" → (s.status = "blocked" ↔ hasUnresolved s)) :
    (applyMutator s op).status ≠ "completed" →
      ((applyMutator s op).status = "blocked" ↔ hasUnresolved (applyMutator s op)) := by
  cases op with
  | addBlocker b now => exact c3_add_blocker s b now (hop b now rfl)
  | resolveBlocker i now => exact c3_resolve s i now hInv
  | addDeliverable d now => exact hInv
  | addRisk r now => exact hInv
  | addIssue i now => exact hInv
  | updateTokenUsage t c now => exact hInv
  | recordPhaseGate ph d sc notes now => exact c3_record s ph d sc notes now hInv
  | advancePhase now => exact c3_advance s now hInv

theorem c3_run : ∀ (ops : List Mutator) (s : ProjectState),
    (∀ b t, Mutator.addBlocker b t ∈ ops → b.status ≠ some "resolved") →
    (s.status ≠ "completed" → (s.status = "blocked" ↔ hasUnresolved s)) →
    ((runMutators ops s).status ≠ "completed" →
      ((runMutators ops s).status = "blocked" ↔ hasUnresolved (runMutators ops s))) := by
  intro ops
  induction ops with
  | nil => intro s _ hInv; exact hInv
  | cons op rest ih =>
    intro s hops hInv
    exact ih (applyMutator s op)
      (fun b t hmem => hops b t (List.mem_cons_of_mem _ hmem))
      (c3_step s op
        (fun b t heq => hops b t (by rw [heq]; exact List.mem_cons_self _ _)) hInv)

theorem c3_base (rid nm dsc pt now : String) :
    (mkProjectState rid nm dsc pt now).status ≠ "completed" →
      ((mkProjectState rid nm dsc pt now).status = "blocked" ↔
        hasUnresolved (mkProjectState rid nm dsc pt now)) := by
  intro _
  constructor
  · intro h
    have hst : (mkProjectState rid nm dsc pt now).status = "pending" := rfl
    rw [hst] at h
    exact absurd h (by decide)
  · intro h
    obtain ⟨b, hb, _⟩ := h
    have hbl : (mkProjectState rid nm dsc pt now).blockers = [] := rfl
    rw [hbl] at hb
    exact absurd hb (List.not_mem_nil b)

/-- C3 counterexample: the claimed invariant is false as stated. Starting from
a fresh ledger, add an unresolved critical blocker and then advance through all
five phases: `advance_phase` at the final phase sets status `"completed"`
unconditionally, so the final state has an unresolved blocker while its status
is not `"blocked"`. -/
theorem c3_counterexample :
    (runMutators opsC3 (mkProjectState "r" "n" "d" "ml" "t0")).status ≠ "blocked" ∧
    ∃ b ∈ (runMutators opsC3 (mkProjectState "r" "n" "d" "ml" "t0")).blockers,
      b.status ≠ some "resolved" := by
  constructor
  · decide
  · decide

/-- C3 (amended): for every state reachable from a fresh ledger by the listed
mutators, provided each blocker passed to `add_blocker` is not already marked
resolved, the invariant holds in the amended form: unless status is
`"completed"` (which `advance_phase` sets unconditionally at the final phase),
status equals `"blocked"` iff an unresolved blocker exists. -/
theorem c3_blocked_iff_unresolved (rid nm dsc pt now : String) (ops : List Mutator)
    (hops : ∀ b t, Mutator.addBlocker b t ∈ ops → b.status ≠ some "resolved")
    (hnc : (runMutators ops (mkProjectState rid nm dsc pt now)).status ≠ "completed") :
    (runMutators ops (mkProjectState rid nm dsc pt now)).status = "blocked" ↔
      hasUnresolved (runMutators ops (mkProjectState rid nm dsc pt now)) :=
  c3_run ops (mkProjectState rid nm dsc pt now) hops (c3_base rid nm dsc pt now) hnc

/-- Witness for C3 on a concrete one-mutator sequence. -/
theorem c3_witness :
    (runMutators [Mutator.addBlocker { severity := some "high", status := some "open" } "t1"]
        (mkProjectState "r" "n" "d" "ml" "t0")).status = "blocked" ↔
      hasUnresolved
        (runMutators [Mutator.addBlocker { severity := some "high", status := some "open" } "t1"]
          (mkProjectState "r" "n" "d" "ml" "t0")) :=
  c3_blocked_iff_unresolved "r" "n" "d" "ml" "t0" _
    (by
      intro b t h
      simp only [List.mem_singleton, Mutator.addBlocker.injEq] at h
      obtain ⟨rfl, rfl⟩ := h
      decide)
    (by decide)

/-! ## C1 -/

theorem failCycle_step (s : MessageBus) (hn : s.normal = [mFail])
    (hm : s.max_delivery_attempts = 3) :
    (failCycle "t1" s).normal = [mFail] ∧
    (failCycle "t1" s).failed_messages = s.failed_messages ∧
    (failCycle "t1" s).max_delivery_attempts = 3 := by
  refine ⟨?_, ?_, ?_⟩ <;>
    simp [failCycle, hn, MessageBus.route_message, MessageBus.publish,
      assocGet_assocSet, hm, mFail]

/-- C1 (code bug): an envelope whose every delivery attempt fails is re-queued
forever and never dead-lettered. `_route_message` re-initializes the pending
tracking entry with `attempts = 0` at the top of each call, so the retry check
always compares `0 + 1 < max_delivery_attempts` and the `"Max delivery attempts
exceeded"` branch is unreachable: after any number `n` of processing cycles the
envelope is back on the normal queue and the dead-letter list is still empty,
contradicting the claimed bound of 3 total attempts. -/
theorem c1_unbounded_retry (n : Nat) :
    ((failCycle "t1")^[n] (initBus.publish mFail)).normal = [mFail] ∧
    ((failCycle "t1")^[n] (initBus.publish mFail)).failed_messages = [] := by
  have key : ∀ j : Nat,
      ((failCycle "t1")^[j] (initBus.publish mFail)).normal = [mFail] ∧
      ((failCycle "t1")^[j] (initBus.publish mFail)).failed_messages = [] ∧
      ((failCycle "t1")^[j] (initBus.publish mFail)).max_delivery_attempts = 3 := by
    intro j
    induction j with
    | zero => exact ⟨by decide, by decide, by decide⟩
    | succ k ih =>
      obtain ⟨hn, hf, hm⟩ := ih
      rw [Function.iterate_succ_apply']
      obtain ⟨ha, hb, hc⟩ := failCycle_step _ hn hm
      exact ⟨ha, by rw [hb, hf], hc⟩
  exact ⟨(key n).1, (key n).2.1⟩

/-! ## C2 -/

theorem tierName_injective (a b : Tier) (h : tierName a = tierName b) : a = b := by
  revert h
  cases a <;> cases b <;> decide

theorem queueOf_setQueue (u v : Tier) (q : List AgentMsg) (s : MessageBus) :
    queueOf v (setQueue u q s) = if v = u then q else queueOf v s := by
  cases u <;> cases v <;> simp [queueOf, setQueue]

theorem history_setQueue (u : Tier) (q : List AgentMsg) (s : MessageBus) :
    (setQueue u q s).message_history = s.message_history := by
  cases u <;> rfl

theorem route_success (s : MessageBus) (m : AgentMsg) (results : List Bool) (now : String)
    (hne : results ≠ []) (hany : results.any (fun b => b) = true) :
    (s.route_message m results now).critical = s.critical ∧
    (s.route_message m results now).high = s.high ∧
    (s.route_message m results now).normal = s.normal ∧
    (s.route_message m results now).low = s.low ∧
    (s.route_message m results now).message_history =
      s.message_history ++ [histEntry m now] := by
  refine ⟨?_, ?_, ?_, ?_, ?_⟩ <;>
    simp [MessageBus.route_message, hne, hany]

/-- C2 (amended): delivery is FIFO within each tier. For every interleaving of
the four tier workers, assuming every recipient has at least one subscriber and
some subscriber succeeds on each delivery, the deliveries logged from tier `t`
are exactly an in-order prefix of tier `t`'s initial queue. Across tiers no
ordering guarantee holds (see the counterexample). -/
theorem c2_fifo_within_tier (results : AgentMsg → List Bool) (now : String)
    (sched : List Tier) (s : MessageBus) (t : Tier)
    (hres : ∀ m, results m ≠ [] ∧ (results m).any (fun b => b) = true)
    (hwf : ∀ u m, m ∈ queueOf u s → m.priority = tierName u) :
    ∃ k d, queueOf t (runWorkers results now sched s) = (queueOf t s).drop k ∧
      (runWorkers results now sched s).message_history = s.message_history ++ d ∧
      d.filter (fun e => decide (e.priority = tierName t)) =
        ((queueOf t s).take k).map (fun m => histEntry m now) := by
  induction sched generalizing s with
  | nil => exact ⟨0, [], by simp [runWorkers]⟩
  | cons u us ih =>
    cases hq : queueOf u s with
    | nil =>
      have hstep : workerStep results now u s = s := by simp [workerStep, hq]
      simpa [runWorkers, hstep] using ih s hwf
    | cons m rest =>
      have hstep : workerStep results now u s =
          (setQueue u rest s).route_message m (results m) now := by
        simp [workerStep, hq]
      obtain ⟨hc, hh, hn, hl, hhist⟩ :=
        route_success (setQueue u rest s) m (results m) now (hres m).1 (hres m).2
      set s' := (setQueue u rest s).route_message m (results m) now with hs'
      have hq' : ∀ v, queueOf v s' = if v = u then rest else queueOf v s := by
        intro v
        have hsq : queueOf v s' = queueOf v (setQueue u rest s) := by
          cases v
          · exact hc
          · exact hh
          · exact hn
          · exact hl
        rw [hsq, queueOf_setQueue]
      have hwf' : ∀ v m', m' ∈ queueOf v s' → m'.priority = tierName v := by
        intro v m' hm'
        rw [hq' v] at hm'
        by_cases hv : v = u
        · subst hv
          rw [if_pos rfl] at hm'
          exact hwf v m' (by rw [hq]; exact List.mem_cons_of_mem m hm')
        · rw [if_neg hv] at hm'
          exact hwf v m' hm'
      have hhist' : s'.message_history = s.message_history ++ [histEntry m now] := by
        rw [hhist, history_setQueue]
      obtain ⟨k', d', h1, h2, h3⟩ := ih s' hwf'
      have hrun : runWorkers results now (u :: us) s = runWorkers results now us s' := by
        simp [runWorkers, hstep]
      by_cases htu : t = u
      · subst htu
        have hpm : m.priority = tierName t :=
          hwf t m (by rw [hq]; exact List.mem_cons_self m rest)
        refine ⟨k' + 1, histEntry m now :: d', ?_, ?_, ?_⟩
        · rw [hrun, h1, hq' t, if_pos rfl, hq, List.drop_succ_cons]
        · rw [hrun, h2, hhist', List.append_assoc]
          simp
        · rw [hq, List.take_succ_cons, List.map_cons]
          have hcond : decide ((histEntry m now).priority = tierName t) = true := by
            simp [histEntry, hpm]
          rw [List.filter_cons, hcond]
          have h3' := h3
          rw [hq' t, if_pos rfl] at h3'
          rw [h3']
          simp
      · have hpm : (histEntry m now).priority = tierName u :=
          hwf u m (by rw [hq]; exact List.mem_cons_self m rest)
        refine ⟨k', histEntry m now :: d', ?_, ?_, ?_⟩
        · rw [hrun, h1, hq' t, if_neg htu]
        · rw [hrun, h2, hhist', List.append_assoc]
          simp
        · have hcond : decide ((histEntry m now).priority = tierName t) = false := by
            rw [hpm]
            simp only [decide_eq_false_iff_not]
            intro hcon
            exact htu (tierName_injective u t hcon).symm
          rw [List.filter_cons, hcond]
          have h3' := h3
          rw [hq' t, if_neg htu] at h3'
          rw [h3']
          simp

/-- Witness for C2's amended theorem at a concrete schedule and bus. -/
theorem c2_witness :
    ∃ k d, queueOf Tier.low (runWorkers (fun _ => [true]) "t1" [Tier.low] sC2) =
        (queueOf Tier.low sC2).drop k ∧
      (runWorkers (fun _ => [true]) "t1" [Tier.low] sC2).message_history =
        sC2.message_history ++ d ∧
      d.filter (fun e => decide (e.priority = tierName Tier.low)) =
        ((queueOf Tier.low sC2).take k).map (fun m => histEntry m "t1") :=
  c2_fifo_within_tier (fun _ => [true]) "t1" [Tier.low] sC2 Tier.low
    (fun m => ⟨by simp, by simp⟩)
    (by
      intro u m h
      cases u <;> simp [queueOf, sC2, initBus] at h <;> subst h <;> rfl)

/-- C2 counterexample: the claim as stated is false. With `m1C2` present on the
high queue and `m2C2` only on the low queue, the interleaving in which the
low-tier worker runs first delivers `m2C2` while `m1C2` — present on the
higher-priority queue at dispatch time — is still undelivered and queued: the
four tier workers run concurrently and no cross-tier priority order is
enforced. -/
theorem c2_counterexample :
    (runWorkers (fun _ => [true]) "t1" [Tier.low] sC2).message_history.map
        (fun e => e.message_id) = ["m2"] ∧
    m1C2 ∈ (runWorkers (fun _ => [true]) "t1" [Tier.low] sC2).high := by
  constructor
  · decide
  · decide

/-! ## C8 -/

theorem pyMin_fold (key : String → Int) :
    ∀ (l : List String) (acc b : String),
      l.foldl (fun best x => if key x < key best then x else best) acc = b →
      (b = acc ∧ ∀ x ∈ l, key acc ≤ key x) ∨
      (∃ l1 l2, l = l1 ++ b :: l2 ∧ key b < key acc ∧
        (∀ x ∈ l1, key b < key x) ∧ (∀ x ∈ l2, key b ≤ key x)) := by
  intro l
  induction l with
  | nil =>
    intro acc b hb
    simp only [List.foldl_nil] at hb
    exact Or.inl ⟨hb.symm, by simp⟩
  | cons x xs ih =>
    intro acc b hb
    simp only [List.foldl_cons] at hb
    by_cases hx : key x < key acc
    · rw [if_pos hx] at hb
      rcases ih x b hb with ⟨hbx, hall⟩ | ⟨l1, l2, hdec, hlt, hl1, hl2⟩
      · subst hbx
        exact Or.inr ⟨[], xs, by simp, hx, by simp, hall⟩
      · refine Or.inr ⟨x :: l1, l2, by simp [hdec], lt_trans hlt hx, ?_, hl2⟩
        intro y hy
        rcases List.mem_cons.mp hy with rfl | hyl
        · exact hlt
        · exact hl1 y hyl
    · rw [if_neg hx] at hb
      have hax : key acc ≤ key x := le_of_not_lt hx
      rcases ih acc b hb with ⟨hba, hall⟩ | ⟨l1, l2, hdec, hlt, hl1, hl2⟩
      · refine Or.inl ⟨hba, ?_⟩
        intro y hy
        rcases List.mem_cons.mp hy with rfl | hyl
        · exact hax
        · exact hall y hyl
      · refine Or.inr ⟨x :: l1, l2, by simp [hdec], hlt, ?_, hl2⟩
        intro y hy
        rcases List.mem_cons.mp hy with rfl | hyl
        · exact lt_of_lt_of_le hlt hax
        · exact hl1 y hyl

theorem pyMin_spec (key : String → Int) (l : List String) (b : String)
    (hb : pyMin key l = some b) :
    b ∈ l ∧ (∀ x ∈ l, key b ≤ key x) ∧
    ∃ l1 l2, l = l1 ++ b :: l2 ∧ ∀ x ∈ l1, key b < key x := by
  cases l with
  | nil => simp [pyMin] at hb
  | cons a rest =>
    simp only [pyMin, Option.some.injEq] at hb
    rcases pyMin_fold key rest a b hb with ⟨hba, hall⟩ | ⟨l1, l2, hdec, hlt, hl1, hl2⟩
    · subst hba
      refine ⟨List.mem_cons_self _ _, ?_, [], rest, rfl, by simp⟩
      intro x hx
      rcases List.mem_cons.mp hx with rfl | hxr
      · exact le_refl _
      · exact hall x hxr
    · refine ⟨?_, ?_, a :: l1, l2, by simp [hdec], ?_⟩
      · rw [hdec]; simp
      · intro x hx
        rcases List.mem_cons.mp hx with rfl | hxr
        · exact le_of_lt hlt
        · rw [hdec] at hxr
          rcases List.mem_append.mp hxr with h | h
          · exact le_of_lt (hl1 x h)
          · rcases List.mem_cons.mp h with rfl | h
            · exact le_refl _
            · exact hl2 x h
      · intro x hx
        rcases List.mem_cons.mp hx with rfl | hxr
        · exact hlt
        · exact hl1 x hxr

theorem filteredCandidates_mem (r : MessageRouter) (ty : String) (req : List String)
    (a : String) :
    a ∈ filteredCandidates r ty req ↔
      a ∈ r.agent_registry ty ∧ passesCaps r req a = true := by
  unfold filteredCandidates
  by_cases hreq : req = []
  · subst hreq
    simp [passesCaps]
  · simp [hreq, List.mem_filter]

/-- C8: `select_agent` with load balancing returns an agent registered under
the requested type that declares every required capability and has minimal
load among all such candidates, preferring the earliest-registered candidate
on load ties; it returns `none` exactly when no registered agent of that type
passes the capability filter; and on registration order a1, a2, a3 with loads
3, 1, 2 it returns the load-1 candidate a2 (with or without a required
capability). -/
theorem c8_select_agent :
    (∀ (r : MessageRouter) (ty : String) (req : List String) (a : String),
        r.select_agent ty req true = some a →
          a ∈ r.agent_registry ty ∧
          (∀ c ∈ req, c ∈ r.agent_capabilities a) ∧
          (∀ b ∈ r.agent_registry ty, passesCaps r req b = true →
            r.agent_load a ≤ r.agent_load b) ∧
          ∃ l1 l2, filteredCandidates r ty req = l1 ++ a :: l2 ∧
            ∀ b ∈ l1, r.agent_load a < r.agent_load b) ∧
    (∀ (r : MessageRouter) (ty : String) (req : List String),
        r.select_agent ty req true = none ↔
          ∀ b ∈ r.agent_registry ty, passesCaps r req b = false) ∧
    (rEx.select_agent "worker" [] true = some "a2" ∧
     rEx.select_agent "worker" ["code"] true = some "a2") := by
  refine ⟨?_, ?_, by decide, by decide⟩
  · intro r ty req a hsel
    unfold MessageRouter.select_agent at hsel
    by_cases hreg : r.agent_registry ty = []
    · rw [if_pos hreg] at hsel
      simp at hsel
    · rw [if_neg hreg] at hsel
      by_cases hfc : filteredCandidates r ty req = []
      · rw [if_pos hfc] at hsel
        simp at hsel
      · rw [if_neg hfc, if_pos rfl] at hsel
        obtain ⟨hmem, hmin, l1, l2, hdec, hstrict⟩ := pyMin_spec r.agent_load _ a hsel
        have hma := (filteredCandidates_mem r ty req a).mp hmem
        refine ⟨hma.1, ?_, ?_, ⟨l1, l2, hdec, hstrict⟩⟩
        · intro c hc
          have hp := hma.2
          simp only [passesCaps, List.all_eq_true, decide_eq_true_eq] at hp
          exact hp c hc
        · intro b hb hpass
          exact hmin b ((filteredCandidates_mem r ty req b).mpr ⟨hb, hpass⟩)
  · intro r ty req
    by_cases hreg : r.agent_registry ty = []
    · simp [MessageRouter.select_agent, hreg]
    · by_cases hfc : filteredCandidates r ty req = []
      · constructor
        · intro _ b hb
          by_contra hp
          have hp' : passesCaps r req b = true := by
            revert hp
            cases passesCaps r req b <;> simp
          have hmem : b ∈ filteredCandidates r ty req :=
            (filteredCandidates_mem r ty req b).mpr ⟨hb, hp'⟩
          rw [hfc] at hmem
          exact absurd hmem (List.not_mem_nil b)
        · intro _
          simp [MessageRouter.select_agent, hreg, hfc]
      · have hsome : ∃ x, r.select_agent ty req true = some x := by
          cases hl : filteredCandidates r ty req with
          | nil => exact absurd hl hfc
          | cons x xs =>
            refine ⟨xs.foldl
              (fun best y => if r.agent_load y < r.agent_load best then y else best) x, ?_⟩
            simp [MessageRouter.select_agent, hreg, hfc, hl, pyMin]
        obtain ⟨x, hx⟩ := hsome
        constructor
        · intro hnone
          rw [hx] at hnone
          simp at hnone
        · intro hall
          cases hl : filteredCandidates r ty req with
          | nil => exact absurd hl hfc
          | cons b bs =>
            have hbmem : b ∈ filteredCandidates r ty req := by
              rw [hl]; exact List.mem_cons_self _ _
            have hchar := (filteredCandidates_mem r ty req b).mp hbmem
            have h1 := hchar.2
            rw [hall b hchar.1] at h1
            simp at h1

/-- Witness for C8: the theorem applied to the concrete router `rEx`. -/
theorem c8_witness :
    "a2" ∈ rEx.agent_registry "worker" ∧
    (∀ c ∈ ["code"], c ∈ rEx.agent_capabilities "a2") ∧
    (∀ b ∈ rEx.agent_registry "worker", passesCaps rEx ["code"] b = true →
      rEx.agent_load "a2" ≤ rEx.agent_load b) ∧
    ∃ l1 l2, filteredCandidates rEx "worker" ["code"] = l1 ++ "a2" :: l2 ∧
      ∀ b ∈ l1, rEx.agent_load "a2" < rEx.agent_load b :=
  c8_select_agent.1 rEx "worker" ["code"] "a2" (by decide)

/-! ## C7 -/

namespace Supervisor

theorem popDispatchable_none (c : List String) :
    ∀ l : List Task, (popDispatchable c l).1 = none → ∀ t ∈ l, depsMet c t = false := by
  intro l
  induction l with
  | nil => intro _ t ht; exact absurd ht (List.not_mem_nil t)
  | cons x xs ih =>
    intro h t ht
    by_cases hx : depsMet c x
    · simp [popDispatchable, hx] at h
    · have h' : (popDispatchable c xs).1 = none := by
        simpa [popDispatchable, hx] using h
      rcases List.mem_cons.mp ht with rfl | hxs
      · simpa using hx
      · exact ih h' t hxs

theorem popDispatchable_some (c : List String) :
    ∀ (l rest : List Task) (t : Task), popDispatchable c l = (some t, rest) →
      ∃ l1 l2, l = l1 ++ t :: l2 ∧ rest = l1 ++ l2 ∧ depsMet c t = true := by
  intro l
  induction l with
  | nil => intro rest t h; simp [popDispatchable] at h
  | cons x xs ih =>
    intro rest t h
    by_cases hx : depsMet c x
    · rw [popDispatchable, if_pos hx] at h
      simp only [Prod.mk.injEq, Option.some.injEq] at h
      obtain ⟨rfl, rfl⟩ := h
      exact ⟨[], xs, rfl, rfl, hx⟩
    · rcases hp : popDispatchable c xs with ⟨fst, snd⟩
      rw [popDispatchable, if_neg hx, hp] at h
      simp only [Prod.mk.injEq] at h
      obtain ⟨h1, h2⟩ := h
      subst h1
      obtain ⟨l1, l2, hl, hr, hd⟩ := ih snd t hp
      refine ⟨x :: l1, l2, by simp [hl], ?_, hd⟩
      rw [← h2, hr]
      simp

theorem scanBuckets_none (c : List String) (q : String → List Task) :
    ∀ ps : List String, scanBuckets c q ps = none →
      ∀ p ∈ ps, ∀ t ∈ q p, depsMet c t = false := by
  intro ps
  induction ps with
  | nil => intro _ p hp; exact absurd hp (List.not_mem_nil p)
  | cons r rs ih =>
    intro h p hp t ht
    rcases hpop : popDispatchable c (q r) with ⟨fst, snd⟩
    cases fst with
    | some u =>
      rw [scanBuckets, hpop] at h
      simp at h
    | none =>
      rw [scanBuckets, hpop] at h
      rcases List.mem_cons.mp hp with rfl | hrs
      · exact popDispatchable_none c (q p) (by rw [hpop]) t ht
      · exact ih h p hrs t ht

theorem scanBuckets_some (c : List String) (q : String → List Task) :
    ∀ (ps : List String) (p : String) (t : Task) (rest : List Task),
      scanBuckets c q ps = some (p, t, rest) →
      p ∈ ps ∧ ∃ l1 l2, q p = l1 ++ t :: l2 ∧ rest = l1 ++ l2 ∧ depsMet c t = true := by
  intro ps
  induction ps with
  | nil => intro p t rest h; simp [scanBuckets] at h
  | cons r rs ih =>
    intro p t rest h
    rcases hpop : popDispatchable c (q r) with ⟨fst, snd⟩
    cases fst with
    | some u =>
      rw [scanBuckets, hpop] at h
      simp only [Option.some.injEq, Prod.mk.injEq] at h
      obtain ⟨rfl, rfl, rfl⟩ := h
      exact ⟨List.mem_cons_self _ _, popDispatchable_some _ _ _ _ hpop⟩
    | none =>
      rw [scanBuckets, hpop] at h
      obtain ⟨hmem, hrest⟩ := ih p t rest h
      exact ⟨List.mem_cons_of_mem _ hmem, hrest⟩

theorem flatten_set_bucket (q : String → List Task) (p : String) (l1 l2 : List Task)
    (t : Task) (hq : q p = l1 ++ t :: l2) :
    ∀ ps : List String, ps.Nodup → p ∈ ps →
      ∃ X Y, (ps.map q).flatten = X ++ t :: Y ∧
        (ps.map (fun p' => if p' = p then l1 ++ l2 else q p')).flatten = X ++ Y := by
  intro ps
  induction ps with
  | nil => intro _ hp; exact absurd hp (List.not_mem_nil p)
  | cons r rs ih =>
    intro hnd hp
    by_cases hrp : r = p
    · subst hrp
      have hnotin : r ∉ rs := (List.nodup_cons.mp hnd).1
      have hmapeq : rs.map (fun p' => if p' = r then l1 ++ l2 else q p') = rs.map q := by
        apply List.map_congr_left
        intro x hx
        rw [if_neg]
        intro hxr
        exact hnotin (hxr ▸ hx)
      refine ⟨l1, l2 ++ (rs.map q).flatten, ?_, ?_⟩
      · simp [hq]
      · simp [hmapeq]
    · have hp' : p ∈ rs := by
        rcases List.mem_cons.mp hp with h | h
        · exact absurd h.symm hrp
        · exact h
      obtain ⟨X, Y, h1, h2⟩ := ih (List.nodup_cons.mp hnd).2 hp'
      refine ⟨q r ++ X, Y, ?_, ?_⟩
      · simp [h1]
      · simp [if_neg hrp, h2]

theorem exists_min_rank (rank : String → Nat) :
    ∀ l : List Task, l ≠ [] →
      ∃ t ∈ l, ∀ u ∈ l, rank t.task_id ≤ rank u.task_id := by
  intro l
  induction l with
  | nil => intro h; exact absurd rfl h
  | cons x xs ih =>
    intro _
    by_cases hxs : xs = []
    · subst hxs
      refine ⟨x, List.mem_cons_self _ _, ?_⟩
      intro u hu
      rcases List.mem_cons.mp hu with rfl | h
      · exact le_refl _
      · exact absurd h (List.not_mem_nil u)
    · obtain ⟨t, htmem, htmin⟩ := ih hxs
      by_cases hcmp : rank x.task_id ≤ rank t.task_id
      · refine ⟨x, List.mem_cons_self _ _, ?_⟩
        intro u hu
        rcases List.mem_cons.mp hu with rfl | h
        · exact le_refl _
        · exact le_trans hcmp (htmin u h)
      · refine ⟨t, List.mem_cons_of_mem _ htmem, ?_⟩
        intro u hu
        rcases List.mem_cons.mp hu with rfl | h
        · exact le_of_not_le hcmp
        · exact htmin u h

theorem mem_pendingOf (q : TaskQueue) (t : Task) :
    t ∈ pendingOf q ↔ ∃ p ∈ prioOrder, t ∈ q.queues p := by
  simp [pendingOf, List.mem_flatten]

theorem get_next_task_some (q : TaskQueue) (p : String) (t : Task) (rest : List Task)
    (hscan : scanBuckets q.completed q.queues prioOrder = some (p, t, rest)) :
    (q.get_next_task).1 = some t ∧
    (q.get_next_task).2.queues = (fun p' => if p' = p then rest else q.queues p') ∧
    (q.get_next_task).2.in_progress = assocSet q.in_progress t.task_id t ∧
    (q.get_next_task).2.completed = q.completed ∧
    (q.get_next_task).2.failed = q.failed := by
  simp [TaskQueue.get_next_task, hscan]

theorem mark_completed_single (Q : TaskQueue) (id : String) (t : Task)
    (h : Q.in_progress = [(id, t)]) :
    Q.mark_completed id = { Q with in_progress := [], completed := Q.completed ++ [id] } := by
  simp [TaskQueue.mark_completed, h, List.eraseP]

theorem c7_step (q0 q : TaskQueue) (rank : String → Nat)
    (hacy : ∀ t ∈ pendingOf q0, ∀ d ∈ t.dependencies,
      (∃ u ∈ pendingOf q0, u.task_id = d) ∧ rank d < rank t.task_id)
    (hip : q.in_progress = []) (hfl : q.failed = [])
    (hsub : (pendingOf q).Sublist (pendingOf q0))
    (hcov : ∀ t ∈ pendingOf q0,
      t.task_id ∈ (pendingOf q).map Task.task_id ∨ t.task_id ∈ q.completed)
    (hne : pendingOf q ≠ []) :
    ∃ t q', q.get_next_task = (some t, q') ∧
      (q'.mark_completed t.task_id).in_progress = [] ∧
      (q'.mark_completed t.task_id).failed = [] ∧
      (pendingOf (q'.mark_completed t.task_id)).Sublist (pendingOf q0) ∧
      (∀ u ∈ pendingOf q0,
        u.task_id ∈ (pendingOf (q'.mark_completed t.task_id)).map Task.task_id ∨
        u.task_id ∈ (q'.mark_completed t.task_id).completed) ∧
      (pendingOf (q'.mark_completed t.task_id)).length + 1 = (pendingOf q).length := by
  obtain ⟨tm, htm, htmin⟩ := exists_min_rank rank (pendingOf q) hne
  have htm0 : tm ∈ pendingOf q0 := hsub.subset htm
  have hdisp : depsMet q.completed tm = true := by
    simp only [depsMet, List.all_eq_true, decide_eq_true_eq]
    intro d hd
    obtain ⟨⟨u, hu0, hud⟩, hrank⟩ := hacy tm htm0 d hd
    have hdnp : d ∉ (pendingOf q).map Task.task_id := by
      intro hmem
      obtain ⟨v, hv, hvid⟩ := List.mem_map.mp hmem
      have hle := htmin v hv
      rw [hvid] at hle
      omega
    rcases hcov u hu0 with hl | hr
    · rw [hud] at hl
      exact absurd hl hdnp
    · rw [hud] at hr
      exact hr
  rcases hscan : scanBuckets q.completed q.queues prioOrder with _ | ⟨p, t, rest⟩
  · exfalso
    obtain ⟨p, hp, htp⟩ := (mem_pendingOf q tm).mp htm
    have hfalse := scanBuckets_none q.completed q.queues prioOrder hscan p hp tm htp
    rw [hdisp] at hfalse
    exact Bool.noConfusion hfalse
  · obtain ⟨hpmem, l1, l2, hqp, hrest, hdm⟩ :=
      scanBuckets_some q.completed q.queues prioOrder p t rest hscan
    subst hrest
    obtain ⟨h1, hQq, hQip, hQc, hQf⟩ := get_next_task_some q p t (l1 ++ l2) hscan
    have hgetEq : q.get_next_task = (some t, (q.get_next_task).2) := by
      rw [← h1]
    have hQip2 : (q.get_next_task).2.in_progress = [(t.task_id, t)] := by
      rw [hQip, hip]
      rfl
    have hmc := mark_completed_single (q.get_next_task).2 t.task_id t hQip2
    obtain ⟨X, Y, hXY1, hXY2⟩ :=
      flatten_set_bucket q.queues p l1 l2 t hqp prioOrder (by decide) hpmem
    have hpq : pendingOf q = X ++ t :: Y := hXY1
    have hmcq : ((q.get_next_task).2.mark_completed t.task_id).queues =
        (q.get_next_task).2.queues := by
      rw [hmc]
    have hmcip : ((q.get_next_task).2.mark_completed t.task_id).in_progress = [] := by
      rw [hmc]
    have hmcfl : ((q.get_next_task).2.mark_completed t.task_id).failed = [] := by
      rw [hmc]
      show (q.get_next_task).2.failed = []
      rw [hQf, hfl]
    have hmcc : ((q.get_next_task).2.mark_completed t.task_id).completed =
        q.completed ++ [t.task_id] := by
      rw [hmc]
      show (q.get_next_task).2.completed ++ [t.task_id] = q.completed ++ [t.task_id]
      rw [hQc]
    have hpmc : pendingOf ((q.get_next_task).2.mark_completed t.task_id) = X ++ Y := by
      show (prioOrder.map ((q.get_next_task).2.mark_completed t.task_id).queues).flatten =
        X ++ Y
      rw [hmcq, hQq]
      exact hXY2
    refine ⟨t, (q.get_next_task).2, hgetEq, hmcip, hmcfl, ?_, ?_, ?_⟩
    · rw [hpmc]
      have hstep : (X ++ Y).Sublist (X ++ t :: Y) :=
        List.Sublist.append_left ((List.Sublist.refl Y).cons t) X
      rw [hpq] at hsub
      exact hstep.trans hsub
    · intro u hu0
      rw [hpmc, hmcc]
      rcases hcov u hu0 with hl | hr
      · rw [hpq] at hl
        simp only [List.map_append, List.map_cons, List.mem_append, List.mem_cons] at hl
        rcases hl with h | h | h
        · exact Or.inl (by simp only [List.map_append, List.mem_append]; exact Or.inl h)
        · exact Or.inr (by simp [h])
        · exact Or.inl (by simp only [List.map_append, List.mem_append]; exact Or.inr h)
      · exact Or.inr (by simp [hr])
    · rw [hpmc, hpq]
      simp
      omega

theorem c7_drain (q0 : TaskQueue) (rank : String → Nat)
    (hacy : ∀ t ∈ pendingOf q0, ∀ d ∈ t.dependencies,
      (∃ u ∈ pendingOf q0, u.task_id = d) ∧ rank d < rank t.task_id) :
    ∀ (n : Nat) (q : TaskQueue), q.in_progress = [] → q.failed = [] →
      (pendingOf q).Sublist (pendingOf q0) →
      (∀ t ∈ pendingOf q0,
        t.task_id ∈ (pendingOf q).map Task.task_id ∨ t.task_id ∈ q.completed) →
      (pendingOf q).length = n →
      pendingOf (drain n q) = [] ∧ (drain n q).in_progress = [] ∧
      (drain n q).failed = [] ∧
      (∀ t ∈ pendingOf q0, t.task_id ∈ (drain n q).completed) := by
  intro n
  induction n with
  | zero =>
    intro q hip hfl _ hcov hlen
    have hnil : pendingOf q = [] := List.length_eq_zero.mp hlen
    refine ⟨hnil, hip, hfl, ?_⟩
    intro t ht
    rcases hcov t ht with hl | hr
    · rw [hnil] at hl
      exact absurd hl (List.not_mem_nil _)
    · exact hr
  | succ k ih =>
    intro q hip hfl hsub hcov hlen
    have hne : pendingOf q ≠ [] := by
      intro h
      rw [h] at hlen
      exact Nat.noConfusion hlen
    obtain ⟨t, q', hget, hip', hfl', hsub', hcov', hlen'⟩ :=
      c7_step q0 q rank hacy hip hfl hsub hcov hne
    have hdr : drain (k + 1) q = drain k (q'.mark_completed t.task_id) := by
      simp [drain, hget]
    rw [hdr]
    exact ih (q'.mark_completed t.task_id) hip' hfl' hsub' hcov' (by omega)

end Supervisor

/-- C7 (amended): `get_next_task` only ever returns a task all of whose
dependency ids are in the completed set, moving it to `in_progress`; and for a
finite acyclic task set (witnessed by a rank function that decreases along
dependencies, all of which point at tasks of the set) the loop that repeatedly
takes the next task and marks it COMPLETED drains every task to the completed
set. The claim's original "completed or failed" fails: a task marked failed
blocks its dependents forever (see the counterexample). -/
theorem c7_scheduler :
    (∀ (q : Supervisor.TaskQueue) (t : Supervisor.Task) (q' : Supervisor.TaskQueue),
        q.get_next_task = (some t, q') →
          (∀ d ∈ t.dependencies, d ∈ q.completed) ∧ (t.task_id, t) ∈ q'.in_progress) ∧
    (∀ (q0 : Supervisor.TaskQueue) (rank : String → Nat),
        q0.in_progress = [] → q0.failed = [] →
        (∀ t ∈ Supervisor.pendingOf q0, ∀ d ∈ t.dependencies,
          (∃ u ∈ Supervisor.pendingOf q0, u.task_id = d) ∧ rank d < rank t.task_id) →
        Supervisor.pendingOf
            (Supervisor.drain (Supervisor.pendingOf q0).length q0) = [] ∧
        (Supervisor.drain (Supervisor.pendingOf q0).length q0).in_progress = [] ∧
        (Supervisor.drain (Supervisor.pendingOf q0).length q0).failed = [] ∧
        (∀ t ∈ Supervisor.pendingOf q0,
          t.task_id ∈ (Supervisor.drain (Supervisor.pendingOf q0).length q0).completed)) := by
  constructor
  · intro q t q' h
    rcases hscan : Supervisor.scanBuckets q.completed q.queues Supervisor.prioOrder with
      _ | ⟨p, u, rest⟩
    · rw [Supervisor.TaskQueue.get_next_task, hscan] at h
      simp at h
    · rw [Supervisor.TaskQueue.get_next_task, hscan] at h
      simp only [Prod.mk.injEq, Option.some.injEq] at h
      obtain ⟨rfl, rfl⟩ := h
      obtain ⟨_, l1, l2, _, _, hdm⟩ :=
        Supervisor.scanBuckets_some q.completed q.queues Supervisor.prioOrder _ _ _ hscan
      constructor
      · intro d hd
        simp only [Supervisor.depsMet, List.all_eq_true, decide_eq_true_eq] at hdm
        exact hdm d hd
      · exact mem_assocSet_self q.in_progress _ _
  · intro q0 rank hip hfl hacy
    exact Supervisor.c7_drain q0 rank hacy (Supervisor.pendingOf q0).length q0 hip hfl
      (List.Sublist.refl _)
      (fun t ht => Or.inl (List.mem_map_of_mem Supervisor.Task.task_id ht)) rfl

/-- C7 counterexample: the original claim's drain-to-completed-or-failed is
false once a task fails. Dispatch `tA`, mark it failed; then `tB` (which
depends on `tA`) is never dispatchable: `get_next_task` returns `none` and
leaves the queue unchanged, so `tB` stays pending forever, in neither the
completed nor the failed set. -/
theorem c7_counterexample :
    (((qC7.get_next_task).2.mark_failed "A").get_next_task.1 = none ∧
     ((qC7.get_next_task).2.mark_failed "A").get_next_task.2 =
       (qC7.get_next_task).2.mark_failed "A") ∧
    tB ∈ Supervisor.pendingOf ((qC7.get_next_task).2.mark_failed "A") ∧
    "B" ∉ ((qC7.get_next_task).2.mark_failed "A").completed ∧
    "B" ∉ ((qC7.get_next_task).2.mark_failed "A").failed := by
  refine ⟨⟨?_, ?_⟩, ?_, ?_, ?_⟩
  · decide
  · rfl
  · decide
  · decide
  · decide

/-- Witness for C7 at a concrete queue: the first conjunct on `qC7` (whose
first dispatched task is `tA`) and the drain conjunct on the one-task queue
`qC7W`. -/
theorem c7_witness :
    ((∀ d ∈ tA.dependencies, d ∈ qC7.completed) ∧
      ("A", tA) ∈ (qC7.get_next_task).2.in_progress) ∧
    (Supervisor.pendingOf
        (Supervisor.drain (Supervisor.pendingOf qC7W).length qC7W) = [] ∧
      (Supervisor.drain (Supervisor.pendingOf qC7W).length qC7W).in_progress = [] ∧
      (Supervisor.drain (Supervisor.pendingOf qC7W).length qC7W).failed = [] ∧
      (∀ t ∈ Supervisor.pendingOf qC7W,
        t.task_id ∈ (Supervisor.drain (Supervisor.pendingOf qC7W).length qC7W).completed)) :=
  ⟨c7_scheduler.1 qC7 tA (qC7.get_next_task).2 rfl,
   c7_scheduler.2 qC7W (fun _ => 0) rfl rfl (by decide)⟩
